import Mathlib

/-!
Verification of the prompt formatter in
`chat_with_llama2_nousresearch_huggingface_v1.ipynb`
(`convert_list_of_message_lists_to_input_prompt` and its marker constants).

The formatter is embedded shallowly: a typed `Message` replaces the Python
`TypedDict`, the tokenizer's `bos_token` / `eos_token` become two explicit
string parameters, and every fallible Python operation (subscripting an
empty list, the two `raise ValueError` sites) is reflected in an
`Except PyError` result.
-/

deriving instance DecidableEq for Except

namespace Llama2Chat

/-- Speaker roles, after the `Role = Literal["system", "user", "assistant"]`
type alias of the notebook. -/
inductive Role
  | system
  | user
  | assistant
deriving DecidableEq, Repr

/-- One chat message, after the `Message` TypedDict of the notebook:
a role together with textual content. -/
structure Message where
  role : Role
  content : String
deriving DecidableEq, Repr

/-- The ways the notebook's formatter can fail: the two `ValueError`s it
raises (role ordering, trailing user turn) and Python's `IndexError` from
subscripting a too-short list. -/
inductive PyError
  | indexError
  | invalidRoleOrdering
  | missingTrailingUserTurn
deriving DecidableEq, Repr

/-- `BEGIN_INST` of the notebook: the instruction-begin markup. -/
def BEGIN_INST : String := "[INST] "

/-- `END_INST` of the notebook: the instruction-end markup. -/
def END_INST : String := " [/INST] "

/-- `BEGIN_SYS` of the notebook: the system-block begin markup. -/
def BEGIN_SYS : String := "<<SYS>>\n"

/-- `END_SYS` of the notebook: the system-block end markup. -/
def END_SYS : String := "\n<</SYS>>\n\n"

/-- The (ASCII) whitespace characters removed by Python's `str.strip()`. -/
def isPyWS (c : Char) : Bool :=
  c = ' ' || c = '\t' || c = '\n' || c = '\r' || c = '\x0b' || c = '\x0c'

/-- Python `str.strip()` on a list of characters: drop whitespace from the
front, then from the back. -/
def stripChars (l : List Char) : List Char :=
  ((l.dropWhile isPyWS).reverse.dropWhile isPyWS).reverse

/-- Python `str.strip()` as used by `(prompt["content"]).strip()` etc. -/
def pyStrip (s : String) : String :=
  ⟨stripChars s.data⟩

/-- Python slice `l[::2]`: the elements at even (0-based) indices. -/
def evens {α : Type} : List α → List α
  | [] => []
  | [x] => [x]
  | x :: _ :: rest => x :: evens rest

/-- Python slice `l[1::2]`: the elements at odd (0-based) indices. -/
def odds {α : Type} : List α → List α
  | [] => []
  | _ :: rest => evens rest

/-- Python `"".join(l)`: concatenation of a list of strings. -/
def joinList : List String → String
  | [] => ""
  | s :: rest => s ++ joinList rest

/-- The alternation test of the notebook:
`all(msg["role"] == "user" for msg in message_list[::2])` and
`all(msg["role"] == "assistant" for msg in message_list[1::2])`. -/
def alternationOk (ml : List Message) : Bool :=
  (evens ml).all (fun m => m.role == Role.user)
    && (odds ml).all (fun m => m.role == Role.assistant)

/-- The system-merge step of the notebook: when `message_list[0]["role"]`
is `"system"`, replace the first two messages by one message carrying the
second message's role, whose content is
`"".join([BEGIN_SYS, message_list[0]["content"], END_SYS, message_list[1]["content"]])`.
Subscripting (`message_list[0]`, `message_list[1]`) on a too-short list is
an `IndexError`. -/
def mergeSystem : List Message → Except PyError (List Message)
  | [] => .error .indexError
  | m0 :: rest =>
    if m0.role = Role.system then
      match rest with
      | [] => .error .indexError
      | m1 :: rest2 =>
        .ok ({ role := m1.role,
               content := BEGIN_SYS ++ m0.content ++ END_SYS ++ m1.content } :: rest2)
    else
      .ok (m0 :: rest)

/-- One `[bos, BEGIN_INST, prompt.strip(), END_INST, answer.strip(), eos]`
segment of the notebook's inner join, for one (user, assistant) pair. -/
def segPair (bos eos : String) (p : Message × Message) : String :=
  bos ++ BEGIN_INST ++ pyStrip p.1.content ++ END_INST ++ pyStrip p.2.content ++ eos

/-- The notebook's
`"".join(["".join([...]) for prompt, answer in zip(message_list[::2], message_list[1::2])])`. -/
def pairsStr (bos eos : String) (ml : List Message) : String :=
  joinList (((evens ml).zip (odds ml)).map (segPair bos eos))

/-- The notebook's trailing segment
`"".join([bos, BEGIN_INST, message_list[-1]["content"].strip(), END_INST])`. -/
def lastSeg (bos : String) (m : Message) : String :=
  bos ++ BEGIN_INST ++ pyStrip m.content ++ END_INST

/-- The body of the notebook's per-conversation loop after the system merge:
raise on broken alternation, build the paired segments, raise when the last
message is not from the user, and append the trailing user segment.
`message_list[-1]` on an empty list would be an `IndexError`. -/
def formatCore (bos eos : String) (ml : List Message) : Except PyError String :=
  if alternationOk ml then
    match ml.getLast? with
    | none => .error .indexError
    | some last =>
      if last.role = Role.user then
        .ok (pairsStr bos eos ml ++ lastSeg bos last)
      else
        .error .missingTrailingUserTurn
  else
    .error .invalidRoleOrdering

/-- Formatting of one conversation: the system merge followed by the body of
the loop. -/
def formatConversation (bos eos : String) (ml : List Message) : Except PyError String :=
  match mergeSystem ml with
  | .error e => .error e
  | .ok ml2 => formatCore bos eos ml2

/-- The notebook's `for message_list in list_of_message_lists` loop: each
conversation is formatted in order; the first raised error aborts the call
and discards every result. -/
def formatAll (bos eos : String) : List (List Message) → Except PyError (List String)
  | [] => .ok []
  | ml :: rest =>
    match formatConversation bos eos ml with
    | .error e => .error e
    | .ok s =>
      match formatAll bos eos rest with
      | .error e => .error e
      | .ok ts => .ok (s :: ts)

/-- `convert_list_of_message_lists_to_input_prompt` of the notebook, with the
tokenizer replaced by its two delimiter strings. The debug line
`print(type(list_of_message_lists[0]))` subscripts the batch before the loop,
so an empty batch is an `IndexError`. -/
def convert_list_of_message_lists_to_input_prompt
    (bos eos : String) (batch : List (List Message)) : Except PyError (List String) :=
  match batch with
  | [] => .error .indexError
  | _ => formatAll bos eos batch

/-- Sufficient shape condition on one conversation for the formatter's
subscripts to be in range: nonempty, and with a second message whenever the
first is a system message. -/
def convOk : List Message → Bool
  | [] => false
  | m0 :: rest => if m0.role = Role.system then !rest.isEmpty else true

/-- Modelled from the spec's testable properties: the output of a well-formed
(post-merge) conversation, built segment by segment — per (user, assistant)
pair a sequence-begin marker, instruction-begin marker, trimmed user content,
instruction-end marker, trimmed assistant content and sequence-end marker,
then a final sequence-begin marker, instruction-begin marker, trimmed content
and instruction-end marker for the trailing unanswered user turn. -/
def specFormat (bos eos : String) : List Message → String
  | [] => ""
  | [u] => bos ++ BEGIN_INST ++ pyStrip u.content ++ END_INST
  | u :: a :: rest =>
    bos ++ BEGIN_INST ++ pyStrip u.content ++ END_INST
      ++ pyStrip a.content ++ eos ++ specFormat bos eos rest

/-- Number of (possibly overlapping) occurrences of the pattern `pat` as a
contiguous substring, counted over all start positions. -/
def countOcc (pat : List Char) : List Char → Nat
  | [] => 0
  | c :: rest => (if pat.isPrefixOf (c :: rest) then 1 else 0) + countOcc pat rest

/-- The per-conversation loop with the caller's batch threaded through as
mutable state: each iteration only reads its conversation and hands it back
unchanged, mirroring that the Python body never assigns into the input
(`message_list = [...] + message_list[2:]` rebinds a local). -/
def convertLoop (bos eos : String) :
    List (List Message) → List String → List (List Message) × Except PyError (List String)
  | [], acc => ([], .ok acc.reverse)
  | ml :: rest, acc =>
    match formatConversation bos eos ml with
    | .error e => (ml :: rest, .error e)
    | .ok s =>
      let pr := convertLoop bos eos rest (s :: acc)
      (ml :: pr.1, pr.2)

/-- `convert_list_of_message_lists_to_input_prompt` with the input batch
threaded as state, returning the batch as left behind by the call next to
the call's result. -/
def convertTracked (bos eos : String) (batch : List (List Message)) :
    List (List Message) × Except PyError (List String) :=
  match batch with
  | [] => ([], .error .indexError)
  | _ => convertLoop bos eos batch []

example :
    formatConversation "<s>" "</s>"
      [⟨.system, "S"⟩, ⟨.user, "U1"⟩, ⟨.assistant, "A1"⟩, ⟨.user, "U2"⟩]
      = .ok "<s>[INST] <<SYS>>\nS\n<</SYS>>\n\nU1 [/INST] A1</s><s>[INST] U2 [/INST] " := by
  decide

example :
    formatConversation "<s>" "</s>" [⟨.user, "a"⟩, ⟨.user, "b"⟩]
      = .error .invalidRoleOrdering := by decide

example :
    formatConversation "<s>" "</s>" [⟨.assistant, "A"⟩]
      = .error .invalidRoleOrdering := by decide

example :
    formatConversation "<s>" "</s>" [⟨.user, "U"⟩, ⟨.assistant, "A"⟩]
      = .error .missingTrailingUserTurn := by decide

example :
    convert_list_of_message_lists_to_input_prompt "<s>" "</s>" [[]]
      = .error .indexError := by decide

example :
    convert_list_of_message_lists_to_input_prompt "<s>" "</s>" [[⟨.system, "S"⟩]]
      = .error .indexError := by decide

example : pyStrip "  a b \n" = "a b" := by decide

theorem evens_cons_cons {α : Type} (x y : α) (l : List α) :
    evens (x :: y :: l) = x :: evens l := rfl

theorem odds_cons {α : Type} (x : α) (l : List α) :
    odds (x :: l) = evens l := rfl

theorem evens_eq_cons_odds {α : Type} (x : α) (l : List α) :
    evens (x :: l) = x :: odds l := by
  cases l <;> rfl

theorem alternationOk_cons_cons {u a : Message} {rest : List Message}
    (h : alternationOk (u :: a :: rest) = true) :
    u.role = Role.user ∧ a.role = Role.assistant ∧ alternationOk rest = true := by
  rw [alternationOk, evens_cons_cons, odds_cons, evens_eq_cons_odds] at h
  simp [List.all_cons, Bool.and_eq_true, beq_iff_eq] at h
  rw [alternationOk]
  simp [Bool.and_eq_true]
  tauto

theorem pairsStr_singleton (bos eos : String) (u : Message) :
    pairsStr bos eos [u] = "" := rfl

theorem pairsStr_cons_cons (bos eos : String) (u a : Message) (rest : List Message) :
    pairsStr bos eos (u :: a :: rest) = segPair bos eos (u, a) ++ pairsStr bos eos rest := by
  cases rest <;> rfl

theorem pairs_spec (bos eos : String) :
    ∀ ml : List Message, ∀ lm : Message,
      alternationOk ml = true → ml.getLast? = some lm → lm.role = Role.user →
      pairsStr bos eos ml ++ lastSeg bos lm = specFormat bos eos ml
  | [], lm => by
    intro _ h _
    simp at h
  | [u], lm => by
    intro _ h _
    rw [List.getLast?_singleton] at h
    injection h with h
    subst h
    rw [pairsStr_singleton, String.empty_append]
    rfl
  | u :: a :: rest, lm => by
    intro halt hlast hrole
    obtain ⟨hu, ha, hrest⟩ := alternationOk_cons_cons halt
    cases rest with
    | nil =>
      rw [List.getLast?_cons_cons, List.getLast?_singleton] at hlast
      injection hlast with h
      subst h
      rw [ha] at hrole
      exact absurd hrole (by decide)
    | cons r rs =>
      rw [List.getLast?_cons_cons, List.getLast?_cons_cons] at hlast
      have ih := pairs_spec bos eos (r :: rs) lm hrest hlast hrole
      rw [pairsStr_cons_cons, String.append_assoc, ih]
      rfl

theorem head_dropWhile_false (p : Char → Bool) :
    ∀ l : List Char, ∀ c : Char, (l.dropWhile p).head? = some c → p c = false
  | [], c => by simp [List.dropWhile]
  | x :: rest, c => by
    intro h
    by_cases hx : p x
    · rw [List.dropWhile_cons_of_pos hx] at h
      exact head_dropWhile_false p rest c h
    · rw [List.dropWhile_cons_of_neg hx] at h
      simp at h
      subst h
      simpa using hx

theorem stripChars_decomp (l : List Char) :
    ∃ a b : List Char,
      l = a ++ stripChars l ++ b ∧ a.all isPyWS = true ∧ b.all isPyWS = true := by
  refine ⟨l.takeWhile isPyWS, ((l.dropWhile isPyWS).reverse.takeWhile isPyWS).reverse,
    ?_, ?_, ?_⟩
  · have hsplit :
        l.dropWhile isPyWS
          = stripChars l ++ ((l.dropWhile isPyWS).reverse.takeWhile isPyWS).reverse := by
      calc l.dropWhile isPyWS
          = (l.dropWhile isPyWS).reverse.reverse := (List.reverse_reverse _).symm
        _ = ((l.dropWhile isPyWS).reverse.takeWhile isPyWS
              ++ (l.dropWhile isPyWS).reverse.dropWhile isPyWS).reverse := by
            rw [List.takeWhile_append_dropWhile]
        _ = ((l.dropWhile isPyWS).reverse.dropWhile isPyWS).reverse
              ++ ((l.dropWhile isPyWS).reverse.takeWhile isPyWS).reverse := by
            rw [List.reverse_append]
        _ = stripChars l ++ ((l.dropWhile isPyWS).reverse.takeWhile isPyWS).reverse := rfl
    conv_lhs => rw [← List.takeWhile_append_dropWhile isPyWS l]
    rw [List.append_assoc]
    exact congrArg (fun t => List.takeWhile isPyWS l ++ t) hsplit
  · simp only [List.all_eq_true]
    intro x hx
    exact List.mem_takeWhile_imp hx
  · simp only [List.all_reverse, List.all_eq_true]
    intro x hx
    exact List.mem_takeWhile_imp hx

theorem stripChars_getLast (l : List Char) (c : Char)
    (h : (stripChars l).getLast? = some c) : isPyWS c = false := by
  rw [stripChars, List.getLast?_reverse] at h
  exact head_dropWhile_false isPyWS _ c h

theorem stripChars_head (l : List Char) (c : Char)
    (h : (stripChars l).head? = some c) : isPyWS c = false := by
  rw [stripChars, List.head?_reverse] at h
  have hne : (l.dropWhile isPyWS).reverse.dropWhile isPyWS ≠ [] := by
    intro h0
    rw [h0] at h
    simp at h
  have h2 : ((l.dropWhile isPyWS).reverse.takeWhile isPyWS
      ++ (l.dropWhile isPyWS).reverse.dropWhile isPyWS).getLast? = some c := by
    rw [List.getLast?_append_of_ne_nil _ hne]
    exact h
  rw [List.takeWhile_append_dropWhile, List.getLast?_reverse] at h2
  exact head_dropWhile_false isPyWS l c h2

theorem pyStrip_decomp (s : String) :
    ∃ a b : List Char,
      s.data = a ++ (pyStrip s).data ++ b ∧ a.all isPyWS = true ∧ b.all isPyWS = true
        ∧ (∀ c, (pyStrip s).data.head? = some c → isPyWS c = false)
        ∧ (∀ c, (pyStrip s).data.getLast? = some c → isPyWS c = false) := by
  obtain ⟨a, b, hab, ha, hb⟩ := stripChars_decomp s.data
  exact ⟨a, b, hab, ha, hb,
    fun c hc => stripChars_head s.data c hc,
    fun c hc => stripChars_getLast s.data c hc⟩

theorem formatConversation_wf (bos eos : String) (ml ml2 : List Message) (lm : Message)
    (hm : mergeSystem ml = .ok ml2) (halt : alternationOk ml2 = true)
    (hlast : ml2.getLast? = some lm) (hrole : lm.role = Role.user) :
    formatConversation bos eos ml = .ok (specFormat bos eos ml2) := by
  have h := pairs_spec bos eos ml2 lm halt hlast hrole
  simp [formatConversation, hm, formatCore, halt, hlast, hrole, h]

theorem formatCore_error_classify (bos eos : String) (m : Message) (rest : List Message)
    (e : PyError) (h : formatCore bos eos (m :: rest) = .error e) :
    e = PyError.invalidRoleOrdering ∨ e = PyError.missingTrailingUserTurn := by
  rw [formatCore] at h
  by_cases halt : alternationOk (m :: rest) = true
  · rw [if_pos halt] at h
    cases hl : (m :: rest).getLast? with
    | none =>
      rw [List.getLast?_eq_none_iff] at hl
      simp at hl
    | some lm =>
      rw [hl] at h
      dsimp only at h
      by_cases hr : lm.role = Role.user
      · rw [if_pos hr] at h
        simp at h
      · rw [if_neg hr] at h
        injection h with h
        exact Or.inr h.symm
  · rw [if_neg halt] at h
    injection h with h
    exact Or.inl h.symm

theorem formatConversation_error_classify (bos eos : String) (ml : List Message) (e : PyError)
    (hok : convOk ml = true) (h : formatConversation bos eos ml = .error e) :
    e = PyError.invalidRoleOrdering ∨ e = PyError.missingTrailingUserTurn := by
  cases ml with
  | nil => simp [convOk] at hok
  | cons m0 rest =>
    by_cases hs : m0.role = Role.system
    · cases rest with
      | nil => simp [convOk, hs] at hok
      | cons m1 rest2 =>
        rw [formatConversation] at h
        simp only [mergeSystem, if_pos hs] at h
        exact formatCore_error_classify bos eos _ _ e h
    · rw [formatConversation] at h
      simp only [mergeSystem, if_neg hs] at h
      exact formatCore_error_classify bos eos _ _ e h

theorem formatAll_error_classify (bos eos : String) :
    ∀ batch : List (List Message), ∀ e : PyError,
      batch.all convOk = true → formatAll bos eos batch = .error e →
      e = PyError.invalidRoleOrdering ∨ e = PyError.missingTrailingUserTurn
  | [], e => by
    intro _ h
    simp [formatAll] at h
  | ml :: rest, e => by
    intro hall h
    simp only [List.all_cons, Bool.and_eq_true] at hall
    rw [formatAll] at h
    cases hfc : formatConversation bos eos ml with
    | error e2 =>
      rw [hfc] at h
      injection h with h
      subst h
      exact formatConversation_error_classify bos eos ml e2 hall.1 hfc
    | ok s =>
      rw [hfc] at h
      cases hfa : formatAll bos eos rest with
      | error e2 =>
        rw [hfa] at h
        injection h with h
        subst h
        exact formatAll_error_classify bos eos rest e2 hall.2 hfa
      | ok ts =>
        rw [hfa] at h
        simp at h

theorem formatAll_append_error (bos eos : String) (e : PyError) (c : List Message) :
    ∀ pre : List (List Message), ∀ post : List (List Message),
      (∀ x ∈ pre, ∃ s, formatConversation bos eos x = .ok s) →
      formatConversation bos eos c = .error e →
      formatAll bos eos (pre ++ c :: post) = .error e
  | [], post => by
    intro _ hc
    rw [List.nil_append, formatAll, hc]
  | x :: pre2, post => by
    intro hpre hc
    obtain ⟨s, hs⟩ := hpre x (by simp)
    have ih := formatAll_append_error bos eos e c pre2 post
      (fun y hy => hpre y (by simp [hy])) hc
    rw [List.cons_append, formatAll, hs, ih]

theorem convertLoop_spec (bos eos : String) :
    ∀ batch : List (List Message), ∀ acc : List String,
      (convertLoop bos eos batch acc).1 = batch ∧
      (convertLoop bos eos batch acc).2
        = (formatAll bos eos batch).map (fun ts => acc.reverse ++ ts)
  | [], acc => by
    simp [convertLoop, formatAll, Except.map]
  | ml :: rest, acc => by
    cases hfc : formatConversation bos eos ml with
    | error e =>
      rw [formatAll, hfc]
      simp only [convertLoop, hfc]
      simp [Except.map]
    | ok s =>
      have ih := convertLoop_spec bos eos rest (s :: acc)
      constructor
      · simp only [convertLoop, hfc]
        simp [ih.1]
      · rw [formatAll, hfc]
        simp only [convertLoop, hfc]
        rw [ih.2]
        cases formatAll bos eos rest with
        | error e => simp [Except.map]
        | ok ts => simp [Except.map, List.reverse_cons, List.append_assoc]

/-- Claim C1, as stated, is false: for the conversation
[system "S", user "U1", assistant "A1", user "U2"] with markers `<s>`/`</s>`,
the formatter does not return the claimed string, which is missing the
instruction-begin marker between the first sequence-begin marker and the
system block. -/
theorem claim_C1_counterexample :
    formatConversation "<s>" "</s>"
        [⟨Role.system, "S"⟩, ⟨Role.user, "U1"⟩, ⟨Role.assistant, "A1"⟩, ⟨Role.user, "U2"⟩]
      ≠ .ok ("<s>" ++ BEGIN_SYS ++ "S" ++ END_SYS ++ "U1" ++ END_INST ++ "A1" ++ "</s>"
          ++ "<s>" ++ BEGIN_INST ++ "U2" ++ END_INST) := by
  decide

/-- Claim C1 (amended): for the conversation
[system "S", user "U1", assistant "A1", user "U2"], the formatter returns
exactly sequence-begin, instruction-begin, system-begin, "S", system-end,
"U1", instruction-end, "A1", sequence-end, sequence-begin, instruction-begin,
"U2", instruction-end — with, for the markers `<s>`/`</s>`, exactly two
sequence-begin markers and exactly one sequence-end marker in the output. -/
theorem claim_C1 :
    (∀ bos eos : String,
      formatConversation bos eos
          [⟨Role.system, "S"⟩, ⟨Role.user, "U1"⟩, ⟨Role.assistant, "A1"⟩, ⟨Role.user, "U2"⟩]
        = .ok (bos ++ BEGIN_INST ++ BEGIN_SYS ++ "S" ++ END_SYS ++ "U1" ++ END_INST
            ++ "A1" ++ eos ++ bos ++ BEGIN_INST ++ "U2" ++ END_INST))
    ∧ Except.map (fun s => countOcc "<s>".data s.data)
        (formatConversation "<s>" "</s>"
          [⟨Role.system, "S"⟩, ⟨Role.user, "U1"⟩, ⟨Role.assistant, "A1"⟩, ⟨Role.user, "U2"⟩])
        = .ok 2
    ∧ Except.map (fun s => countOcc "</s>".data s.data)
        (formatConversation "<s>" "</s>"
          [⟨Role.system, "S"⟩, ⟨Role.user, "U1"⟩, ⟨Role.assistant, "A1"⟩, ⟨Role.user, "U2"⟩])
        = .ok 1 := by
  refine ⟨?_, by decide, by decide⟩
  intro bos eos
  have h : formatConversation bos eos
      [⟨Role.system, "S"⟩, ⟨Role.user, "U1"⟩, ⟨Role.assistant, "A1"⟩, ⟨Role.user, "U2"⟩]
      = .ok ((bos ++ BEGIN_INST ++ pyStrip (BEGIN_SYS ++ "S" ++ END_SYS ++ "U1")
          ++ END_INST ++ pyStrip "A1" ++ eos ++ "")
        ++ (bos ++ BEGIN_INST ++ pyStrip "U2" ++ END_INST)) := rfl
  rw [h,
    show pyStrip (BEGIN_SYS ++ "S" ++ END_SYS ++ "U1")
        = BEGIN_SYS ++ "S" ++ END_SYS ++ "U1" from by decide,
    show pyStrip "A1" = "A1" from by decide,
    show pyStrip "U2" = "U2" from by decide]
  simp [String.append_assoc, String.append_empty, String.empty_append]

/-- Claim C2, as stated, is false: in the batch
[[user "a", user "b"], [user "c"]] the first conversation is malformed and
the second is well-formed (it formats to a prompt on its own), yet the whole
call raises the first conversation's error and returns no prompt for the
second conversation. -/
theorem claim_C2_counterexample :
    convert_list_of_message_lists_to_input_prompt "<s>" "</s>"
        [[⟨Role.user, "a"⟩, ⟨Role.user, "b"⟩], [⟨Role.user, "c"⟩]]
      = .error .invalidRoleOrdering
    ∧ formatConversation "<s>" "</s>" [⟨Role.user, "c"⟩]
      = .ok "<s>[INST] c [/INST] " := by
  decide

/-- Claim C2 (amended): each conversation of a nonempty batch is validated
and formatted, in order, by a function of that conversation alone; the first
malformed conversation's error becomes the result of the whole call, so no
prompt — not even of a well-formed conversation — is returned. -/
theorem claim_C2 (bos eos : String) :
    (∀ batch : List (List Message), batch ≠ [] →
      convert_list_of_message_lists_to_input_prompt bos eos batch
        = formatAll bos eos batch)
    ∧ (∀ (e : PyError) (c : List Message) (pre post : List (List Message)),
        (∀ x ∈ pre, ∃ s, formatConversation bos eos x = .ok s) →
        formatConversation bos eos c = .error e →
        formatAll bos eos (pre ++ c :: post) = .error e) := by
  constructor
  · intro batch hb
    cases batch with
    | nil => exact absurd rfl hb
    | cons b rest => rfl
  · intro e c pre post hpre hc
    exact formatAll_append_error bos eos e c pre post hpre hc

/-- Witness for claim C2 at a concrete batch: a well-formed conversation
before a malformed one is formatted, yet the call returns only the error. -/
theorem claim_C2_witness :
    convert_list_of_message_lists_to_input_prompt "<s>" "</s>" [[⟨Role.user, "p"⟩]]
      = formatAll "<s>" "</s>" [[⟨Role.user, "p"⟩]]
    ∧ formatAll "<s>" "</s>"
        ([[⟨Role.user, "p"⟩]] ++ [⟨Role.user, "a"⟩, ⟨Role.user, "b"⟩] :: [[⟨Role.user, "q"⟩]])
      = .error .invalidRoleOrdering :=
  ⟨(claim_C2 "<s>" "</s>").1 [[⟨Role.user, "p"⟩]] (by decide),
   (claim_C2 "<s>" "</s>").2 .invalidRoleOrdering
     [⟨Role.user, "a"⟩, ⟨Role.user, "b"⟩] [[⟨Role.user, "p"⟩]] [[⟨Role.user, "q"⟩]]
     (by
       intro x hx
       simp only [List.mem_singleton] at hx
       subst hx
       exact ⟨"<s>[INST] p [/INST] ", by decide⟩)
     (by decide)⟩

/-- Claim C3: when the first turn's role is system and a second turn follows,
the formatter's merge step replaces the first two turns by a single turn
carrying the second turn's role, whose content is the system-begin markup,
the system content, the system-end markup and the second turn's content
concatenated with no separator. -/
theorem claim_C3 (s : String) (m : Message) (rest : List Message) :
    mergeSystem (⟨Role.system, s⟩ :: m :: rest)
      = .ok (⟨m.role, BEGIN_SYS ++ s ++ END_SYS ++ m.content⟩ :: rest) := rfl

/-- Claim C4: after the optional system merge, a conversation in which some
even-indexed turn is not a user turn or some odd-indexed turn is not an
assistant turn fails with the invalid-role-ordering error. -/
theorem claim_C4 (bos eos : String) (ml ml2 : List Message)
    (hm : mergeSystem ml = .ok ml2) (halt : alternationOk ml2 = false) :
    formatConversation bos eos ml = .error .invalidRoleOrdering := by
  unfold formatConversation
  rw [hm]
  dsimp only
  rw [formatCore, if_neg (by simp [halt])]

/-- Witness for claim C4: the conversation [user, user] raises the
invalid-role-ordering error. -/
theorem claim_C4_witness :
    formatConversation "<s>" "</s>" [⟨Role.user, "a"⟩, ⟨Role.user, "b"⟩]
      = .error .invalidRoleOrdering :=
  claim_C4 "<s>" "</s>" _ [⟨Role.user, "a"⟩, ⟨Role.user, "b"⟩] (by decide) (by decide)

/-- Claim C5, as stated, is false: the conversation [assistant "A"] does not
end with a user turn (and the merge step leaves it unchanged), yet formatting
fails with the invalid-role-ordering error, not with the
missing-trailing-user-turn error. -/
theorem claim_C5_counterexample :
    mergeSystem [⟨Role.assistant, "A"⟩] = .ok [⟨Role.assistant, "A"⟩]
    ∧ Role.assistant ≠ Role.user
    ∧ formatConversation "<s>" "</s>" [⟨Role.assistant, "A"⟩]
        ≠ .error .missingTrailingUserTurn
    ∧ formatConversation "<s>" "</s>" [⟨Role.assistant, "A"⟩]
        = .error .invalidRoleOrdering := by
  decide

/-- Claim C5 (amended): every conversation that passes the role-alternation
check after the optional system merge and whose last turn's role is not user
fails with the missing-trailing-user-turn error. -/
theorem claim_C5 (bos eos : String) (ml ml2 : List Message) (lm : Message)
    (hm : mergeSystem ml = .ok ml2) (halt : alternationOk ml2 = true)
    (hlast : ml2.getLast? = some lm) (hrole : lm.role ≠ Role.user) :
    formatConversation bos eos ml = .error .missingTrailingUserTurn := by
  unfold formatConversation
  rw [hm]
  dsimp only
  rw [formatCore, if_pos halt, hlast]
  dsimp only
  rw [if_neg hrole]

/-- Witness for claim C5: a conversation ending in an assistant turn raises
the missing-trailing-user-turn error. -/
theorem claim_C5_witness :
    formatConversation "<s>" "</s>" [⟨Role.user, "U"⟩, ⟨Role.assistant, "A"⟩]
      = .error .missingTrailingUserTurn :=
  claim_C5 "<s>" "</s>" _ [⟨Role.user, "U"⟩, ⟨Role.assistant, "A"⟩]
    ⟨Role.assistant, "A"⟩ (by decide) (by decide) (by decide) (by decide)

/-- Claim C6: for every well-formed conversation — the optional leading
system turn merged away, alternation holding, last turn a user turn — the
formatted prompt is the concatenation, in order and with no separator, of
one segment (sequence-begin, instruction-begin, trimmed user content,
instruction-end, trimmed assistant content, sequence-end) per consecutive
(user, assistant) pair, followed by a final segment (sequence-begin,
instruction-begin, trimmed content, instruction-end) for the trailing
unanswered user turn, as captured by `specFormat`. -/
theorem claim_C6 (bos eos : String) (ml ml2 : List Message) (lm : Message)
    (hm : mergeSystem ml = .ok ml2) (halt : alternationOk ml2 = true)
    (hlast : ml2.getLast? = some lm) (hrole : lm.role = Role.user) :
    formatConversation bos eos ml = .ok (specFormat bos eos ml2) :=
  formatConversation_wf bos eos ml ml2 lm hm halt hlast hrole

/-- Witness for claim C6 at a concrete four-turn conversation. -/
theorem claim_C6_witness :
    formatConversation "<s>" "</s>"
        [⟨Role.system, "S"⟩, ⟨Role.user, "U1"⟩, ⟨Role.assistant, "A1"⟩, ⟨Role.user, "U2"⟩]
      = .ok (specFormat "<s>" "</s>"
          [⟨Role.user, BEGIN_SYS ++ "S" ++ END_SYS ++ "U1"⟩,
           ⟨Role.assistant, "A1"⟩, ⟨Role.user, "U2"⟩]) :=
  claim_C6 "<s>" "</s>" _
    [⟨Role.user, BEGIN_SYS ++ "S" ++ END_SYS ++ "U1"⟩,
     ⟨Role.assistant, "A1"⟩, ⟨Role.user, "U2"⟩]
    ⟨Role.user, "U2"⟩ (by decide) (by decide) (by decide) (by decide)

/-- Claim C7: for every well-formed conversation the output is built from
the `pyStrip`-trimmed content of each post-merge turn (including a user turn
into which a system turn was merged), and trimming removes exactly a
whitespace-only leading part and a whitespace-only trailing part — the
trimmed content is a verbatim contiguous segment of the original content
that neither starts nor ends with whitespace. -/
theorem claim_C7 (bos eos : String) (ml ml2 : List Message) (lm : Message)
    (hm : mergeSystem ml = .ok ml2) (halt : alternationOk ml2 = true)
    (hlast : ml2.getLast? = some lm) (hrole : lm.role = Role.user) :
    formatConversation bos eos ml = .ok (specFormat bos eos ml2)
    ∧ ∀ m ∈ ml2, ∃ a b : List Char,
        m.content.data = a ++ (pyStrip m.content).data ++ b
        ∧ a.all isPyWS = true ∧ b.all isPyWS = true
        ∧ (∀ c, (pyStrip m.content).data.head? = some c → isPyWS c = false)
        ∧ (∀ c, (pyStrip m.content).data.getLast? = some c → isPyWS c = false) :=
  ⟨formatConversation_wf bos eos ml ml2 lm hm halt hlast hrole,
   fun m _ => pyStrip_decomp m.content⟩

/-- Witness for claim C7 at a conversation whose contents carry leading and
trailing whitespace, with a merged system turn. -/
theorem claim_C7_witness :
    formatConversation "<s>" "</s>"
        [⟨Role.system, " S "⟩, ⟨Role.user, "  U1 x \n"⟩,
         ⟨Role.assistant, " A "⟩, ⟨Role.user, "\tU2"⟩]
      = .ok (specFormat "<s>" "</s>"
          [⟨Role.user, BEGIN_SYS ++ " S " ++ END_SYS ++ "  U1 x \n"⟩,
           ⟨Role.assistant, " A "⟩, ⟨Role.user, "\tU2"⟩])
    ∧ ∀ m ∈ [(⟨Role.user, BEGIN_SYS ++ " S " ++ END_SYS ++ "  U1 x \n"⟩ : Message),
             ⟨Role.assistant, " A "⟩, ⟨Role.user, "\tU2"⟩],
        ∃ a b : List Char,
          m.content.data = a ++ (pyStrip m.content).data ++ b
          ∧ a.all isPyWS = true ∧ b.all isPyWS = true
          ∧ (∀ c, (pyStrip m.content).data.head? = some c → isPyWS c = false)
          ∧ (∀ c, (pyStrip m.content).data.getLast? = some c → isPyWS c = false) :=
  claim_C7 "<s>" "</s>" _
    [⟨Role.user, BEGIN_SYS ++ " S " ++ END_SYS ++ "  U1 x \n"⟩,
     ⟨Role.assistant, " A "⟩, ⟨Role.user, "\tU2"⟩]
    ⟨Role.user, "\tU2"⟩ (by decide) (by decide) (by decide) (by decide)

/-- Claim C8, as stated, is false: a batch containing an empty conversation
(or a conversation that is a single system turn) fails with an index error,
a failure mode distinct from both format-error variants. -/
theorem claim_C8_counterexample :
    convert_list_of_message_lists_to_input_prompt "<s>" "</s>" [[]]
      = .error .indexError
    ∧ PyError.indexError ≠ PyError.invalidRoleOrdering
    ∧ PyError.indexError ≠ PyError.missingTrailingUserTurn
    ∧ convert_list_of_message_lists_to_input_prompt "<s>" "</s>" [[⟨Role.system, "S"⟩]]
      = .error .indexError := by
  decide

/-- Claim C8 (amended): for every nonempty batch whose conversations each
have at least one turn, and a second turn whenever the first is a system
turn, the only failure modes are the invalid-role-ordering and
missing-trailing-user-turn format errors. -/
theorem claim_C8 (bos eos : String) (batch : List (List Message)) (e : PyError)
    (hne : batch ≠ []) (hok : batch.all convOk = true)
    (h : convert_list_of_message_lists_to_input_prompt bos eos batch = .error e) :
    e = PyError.invalidRoleOrdering ∨ e = PyError.missingTrailingUserTurn := by
  cases batch with
  | nil => exact absurd rfl hne
  | cons b rest =>
    have h2 : formatAll bos eos (b :: rest) = .error e := h
    exact formatAll_error_classify bos eos (b :: rest) e hok h2

/-- Witness for claim C8 at a concrete malformed batch whose failure is the
invalid-role-ordering format error. -/
theorem claim_C8_witness :
    PyError.invalidRoleOrdering = PyError.invalidRoleOrdering
    ∨ PyError.invalidRoleOrdering = PyError.missingTrailingUserTurn :=
  claim_C8 "<s>" "</s>" [[⟨Role.user, "a"⟩, ⟨Role.user, "b"⟩]]
    .invalidRoleOrdering (by decide) (by decide) (by decide)

/-- Claim C9: the formatter never mutates its input — with the caller's
batch threaded through the loop as state, the batch left behind after the
call (whether it returns prompts or an error) is exactly the input batch,
and the call's result is that of the pure formatter. -/
theorem claim_C9 (bos eos : String) (batch : List (List Message)) :
    (convertTracked bos eos batch).1 = batch
    ∧ (convertTracked bos eos batch).2
        = convert_list_of_message_lists_to_input_prompt bos eos batch := by
  cases batch with
  | nil => exact ⟨rfl, rfl⟩
  | cons b rest =>
    have h := convertLoop_spec bos eos (b :: rest) []
    constructor
    · exact h.1
    · show (convertLoop bos eos (b :: rest) []).2 = formatAll bos eos (b :: rest)
      rw [h.2]
      cases formatAll bos eos (b :: rest) with
      | error e => simp [Except.map]
      | ok ts => simp [Except.map]

/-- Claim C10: calling the formatter on an empty batch fails with an index
error (from subscripting the batch in the debug print) rather than
returning an empty list of prompts. -/
theorem claim_C10 (bos eos : String) :
    convert_list_of_message_lists_to_input_prompt bos eos [] = .error .indexError := rfl

end Llama2Chat
